import Mathlib

/-!
Verification of the newsfirst scraper (`src/news_scraper.py`) against its
natural-language specification.  The Python source is shallowly embedded:
pure functions become Lean functions, library calls (HTML parsing, `urljoin`,
`json.loads`, `dateutil`) are modelled as explicit inputs or parameters, and
ambient state (the clock, the tracking file) is passed explicitly.
Python strings are modelled as Lean `String` (both are sequences of unicode
code points, and Python `len`/slicing count code points exactly as
`String.length`/`data.take` do).
-/

namespace NewsScraper

/-! ## Basic string helpers (Python `str.strip` / `str.rstrip` / `"".join`) -/

/-- Python `str` whitespace for `strip()` with no argument (ASCII part;
the unicode extras never occur in the inputs the program handles). -/
def pyWs (c : Char) : Bool :=
  c = ' ' || c = '\t' || c = '\n' || c = '\r' || c = Char.ofNat 11 || c = Char.ofNat 12

/-- Python `s.strip()`: drop leading and trailing whitespace. -/
def stripStr (s : String) : String :=
  ⟨((s.data.dropWhile pyWs).reverse.dropWhile pyWs).reverse⟩

/-- Python `s.rstrip()`: drop trailing whitespace. -/
def rstripStr (s : String) : String :=
  ⟨(s.data.reverse.dropWhile pyWs).reverse⟩

/-- Python `s.rstrip("Z")`: drop every trailing `Z`. -/
def rstripZ (s : String) : String :=
  ⟨(s.data.reverse.dropWhile (fun c => c = 'Z')).reverse⟩

/-- Python `s[:n]` on a string: first `n` code points. -/
def takeChars (s : String) (n : Nat) : String := ⟨s.data.take n⟩

/-- Python `sep.join(xs)`. -/
def joinSep (sep : String) : List String → String
  | [] => ""
  | [x] => x
  | x :: y :: xs => x ++ sep ++ joinSep sep (y :: xs)

/-! ## Content extraction, body part (`extract_article_content`, lines 213-232)

The HTML side (BeautifulSoup locating the container and the `<p>` elements)
is modelled by taking as input the list of paragraph texts, each already the
result of `p.get_text(" ", strip=True)` on one `<p>` of the selected
container, in document order.  Everything from the boilerplate filter on is
translated line by line. -/

/-- The fixed fallback body (line 225 of the source). -/
def placeholderBody : String := "Content not clearly detected from page."

/-- Lines 213-225: keep only non-empty paragraph texts of length at least 30,
substituting the placeholder when none survive. -/
def selectParagraphs (ps : List String) : List String :=
  let kept := ps.filter fun t => !t.isEmpty && decide (30 ≤ t.length)
  if kept.isEmpty then [placeholderBody] else kept

/-- Line 227: `body = "\n\n".join(paragraphs[:4])`, before truncation. -/
def rawBody (ps : List String) : String :=
  joinSep "\n\n" ((selectParagraphs ps).take 4)

/-- Lines 227-232: join the first four surviving paragraphs (`body`) and
hard-truncate at `max_len = 3500` characters with a trailing ellipsis:
`if len(body) > max_len: body = body[:max_len].rstrip() + "..."`. -/
def buildBody (ps : List String) : String :=
  if 3500 < (rawBody ps).length then rstripStr (takeChars (rawBody ps) 3500) ++ "..."
  else rawBody ps

/-! ## The tracking store: JSON model, `load_sent_articles`, persistence

A JSON value as produced by `json.loads` (objects model Python dicts, so
their key lists are duplicate-free; `lookupKey` models `data[k]`/`.get(k)`). -/

inductive Json where
  | null : Json
  | bool : Bool → Json
  | num : Int → Json
  | str : String → Json
  | arr : List Json → Json
  | obj : List (String × Json) → Json

/-- Dict access `fields[key]` / `fields.get(key)`. -/
def lookupKey (key : String) : List (String × Json) → Option Json
  | [] => none
  | (k, v) :: rest => if k = key then some v else lookupKey key rest

def lbrace : Char := Char.ofNat 123

def rbrace : Char := Char.ofNat 125

def lbraceS : String := String.singleton lbrace

def rbraceS : String := String.singleton rbrace

/-- Minimal JSON string escaping (`json.dumps` escapes at least quote and
backslash; control-character escapes never occur in the values at hand). -/
def escChar (c : Char) : List Char :=
  if c = '"' then ['\\', '"'] else if c = '\\' then ['\\', '\\'] else [c]

def dumpsStr (s : String) : String :=
  "\"" ++ ⟨s.data.foldr (fun c acc => escChar c ++ acc) []⟩ ++ "\""

mutual

/-- Models `json.dumps` (up to insignificant whitespace: the source passes
`indent=2`, which only changes whitespace and never the parsed value). -/
def dumps : Json → String
  | .null => "null"
  | .bool true => "true"
  | .bool false => "false"
  | .num n => toString n
  | .str s => dumpsStr s
  | .arr items => "[" ++ dumpsList items ++ "]"
  | .obj fields => lbraceS ++ dumpsFields fields ++ rbraceS

def dumpsList : List Json → String
  | [] => ""
  | [j] => dumps j
  | j :: j2 :: rest => dumps j ++ ", " ++ dumpsList (j2 :: rest)

def dumpsFields : List (String × Json) → String
  | [] => ""
  | [kv] => dumpsStr kv.1 ++ ": " ++ dumps kv.2
  | kv :: kv2 :: rest => dumpsStr kv.1 ++ ": " ++ dumps kv.2 ++ ", " ++ dumpsFields (kv2 :: rest)

end

/-- What one run of `load_sent_articles` observes of the backing file:
absent (`path.exists()` false), unreadable (`OSError` from `read_text`), or
its raw text paired with the result of `json.loads` on it (`none` models a
`JSONDecodeError`). -/
inductive FileRead where
  | absent : FileRead
  | readErr : FileRead
  | content : String → Option Json → FileRead

/-- The schema gate of lines 277-278: a dict with an `articles` list. -/
def getArticles : Json → Option (List Json)
  | .obj fields =>
    match lookupKey "articles" fields with
    | some (.arr items) => some items
    | _ => none
  | _ => none

/-- `load_sent_articles` (lines 260-282), returning the `articles` list of the
loaded store (an absent/blank/corrupt/mis-shaped file yields the empty store
`{"articles": []}`). -/
def load_sent_articles : FileRead → List Json
  | .absent => []
  | .readErr => []
  | .content raw parsed =>
    if stripStr raw = "" then []
    else
      match parsed with
      | none => []
      | some j =>
        match getArticles j with
        | some items => items
        | none => []

/-- A record as `save_sent_article` (lines 352-367) creates it: all four
fields present and strings. -/
structure SentRecord where
  url : String
  content_hash : String
  title : String
  sent_at : String
deriving DecidableEq

/-- A record as the consuming side reads it, via `.get` with tolerance for
missing fields: `none` models an absent (or non-string) field. -/
structure Record where
  url : Option String
  content_hash : Option String
  title : Option String
  sent_at : Option String
deriving DecidableEq

def sentToRecord (r : SentRecord) : Record :=
  ⟨some r.url, some r.content_hash, some r.title, some r.sent_at⟩

/-- The dict `save_sent_article` appends (lines 360-367). -/
def encodeSent (r : SentRecord) : Json :=
  .obj [("url", .str r.url), ("content_hash", .str r.content_hash),
        ("title", .str r.title), ("sent_at", .str r.sent_at)]

/-- The whole store dict `{"articles": [...]}`. -/
def storeJson (recs : List SentRecord) : Json :=
  .obj [("articles", .arr (recs.map encodeSent))]

/-- `save_sent_articles_to_file` (lines 370-378) writes
`json.dumps(store, ...) + "\n"`; this is the raw text of the file after a
successful persist. -/
def persistRaw (recs : List SentRecord) : String :=
  dumps (storeJson recs) ++ "\n"

def jsonGetStr (j : Json) (key : String) : Option String :=
  match j with
  | .obj fields =>
    match lookupKey key fields with
    | some (.str s) => some s
    | _ => none
  | _ => none

/-- Reading one loaded article dict through the consumers' accessors
(`article.get("url")`, `.get("content_hash")`, `.get("title")`,
`.get("sent_at")`). -/
def decodeRecord (j : Json) : Record :=
  ⟨jsonGetStr j "url", jsonGetStr j "content_hash",
   jsonGetStr j "title", jsonGetStr j "sent_at"⟩

/-! ## Duplicate checker (`is_article_sent`, lines 324-349) -/

/-- The reason string for a URL match (Python truthiness of `sent_at`: `None`
and `""` both fall back to the "previously" wording). -/
def urlReason (sent_at : Option String) : String :=
  match sent_at with
  | some s => if s = "" then "URL already sent previously" else "URL already sent on " ++ s
  | none => "URL already sent previously"

/-- The reason string for a content-hash match. -/
def contentReason (sent_at : Option String) : String :=
  match sent_at with
  | some s => if s = "" then "Content already sent previously" else "Content already sent on " ++ s
  | none => "Content already sent previously"

/-- `is_article_sent(url, content_hash, store)`: scan the records in order;
for each record compare the stored URL first, then the stored hash; return at
the first match. -/
def is_article_sent (url content_hash : String) : List Record → Bool × Option String
  | [] => (false, none)
  | a :: rest =>
    if a.url = some url then (true, some (urlReason a.sent_at))
    else if a.content_hash = some content_hash then (true, some (contentReason a.sent_at))
    else is_article_sent url content_hash rest

/-! ## Naive datetimes and ISO parsing

`datetime.fromisoformat` is modelled for the naive timestamp shapes this
program reads and writes (`YYYY-MM-DD`, optionally followed by `T` or a space
and `HH`, `HH:MM` or `HH:MM:SS`); fractional seconds and timezone offsets are
outside the modelled fragment (the program only ever writes
`YYYY-MM-DDTHH:MM:SSZ` and strips the `Z` before parsing).  A parsed naive
datetime is represented by its second count since the Unix epoch, which is
order-isomorphic to Python's lexicographic `datetime` comparison. -/

structure DateTime where
  year : Nat
  month : Nat
  day : Nat
  hour : Nat
  minute : Nat
  second : Nat
deriving DecidableEq

def isLeapYear (y : Nat) : Bool :=
  (y % 4 = 0 && y % 100 ≠ 0) || y % 400 = 0

def daysInMonth (y m : Nat) : Nat :=
  if m = 2 then (if isLeapYear y then 29 else 28)
  else if m = 4 || m = 6 || m = 9 || m = 11 then 30
  else 31

/-- Days from 1970-01-01 to year-month-day (proleptic Gregorian, valid for
year ≥ 1; the Howard Hinnant civil-days algorithm). -/
def daysSinceEpoch (y m d : Nat) : Int :=
  let y2 := if m ≤ 2 then y - 1 else y
  let era := y2 / 400
  let yoe := y2 - era * 400
  let mp := if 2 < m then m - 3 else m + 9
  let doy := (153 * mp + 2) / 5 + (d - 1)
  let doe := yoe * 365 + yoe / 4 - yoe / 100 + doy
  (era * 146097 + doe : Nat) - (719468 : Int)

def toEpochSeconds (t : DateTime) : Int :=
  daysSinceEpoch t.year t.month t.day * 86400
    + ((t.hour * 3600 + t.minute * 60 + t.second : Nat) : Int)

def digitVal (c : Char) : Nat := c.toNat - 48

/-- Exactly two digits. -/
def readD2 : List Char → Option (Nat × List Char)
  | c1 :: c2 :: rest =>
    if c1.isDigit && c2.isDigit then some (digitVal c1 * 10 + digitVal c2, rest) else none
  | _ => none

/-- Exactly four digits. -/
def readD4 : List Char → Option (Nat × List Char)
  | c1 :: c2 :: c3 :: c4 :: rest =>
    if c1.isDigit && c2.isDigit && c3.isDigit && c4.isDigit then
      some (((digitVal c1 * 10 + digitVal c2) * 10 + digitVal c3) * 10 + digitVal c4, rest)
    else none
  | _ => none

/-- One or two digits, greedy. -/
def readD12 : List Char → Option (Nat × List Char)
  | [] => none
  | [c1] => if c1.isDigit then some (digitVal c1, []) else none
  | c1 :: c2 :: rest =>
    if c1.isDigit then
      if c2.isDigit then some (digitVal c1 * 10 + digitVal c2, rest)
      else some (digitVal c1, c2 :: rest)
    else none

/-- A single literal character. -/
def litc (ch : Char) : List Char → Option (List Char)
  | c :: rest => if c = ch then some rest else none
  | [] => none

/-- Range validation as performed by `datetime` construction
(`MINYEAR = 1`, month 1-12, day within the month, time fields in range). -/
def mkDT (y mo d hh mi ss : Nat) : Option DateTime :=
  if 1 ≤ y ∧ y ≤ 9999 ∧ 1 ≤ mo ∧ mo ≤ 12 ∧ 1 ≤ d ∧ d ≤ daysInMonth y mo
      ∧ hh ≤ 23 ∧ mi ≤ 59 ∧ ss ≤ 59 then
    some ⟨y, mo, d, hh, mi, ss⟩
  else none

def parseIsoTime (y mo d : Nat) (cs : List Char) : Option DateTime :=
  match readD2 cs with
  | none => none
  | some (hh, cs1) =>
    match cs1 with
    | [] => mkDT y mo d hh 0 0
    | ':' :: cs2 =>
      match readD2 cs2 with
      | none => none
      | some (mi, cs3) =>
        match cs3 with
        | [] => mkDT y mo d hh mi 0
        | ':' :: cs4 =>
          match readD2 cs4 with
          | none => none
          | some (ss, cs5) => if cs5 = [] then mkDT y mo d hh mi ss else none
        | _ => none
    | _ => none

def parseIsoChars (cs : List Char) : Option DateTime :=
  match readD4 cs with
  | none => none
  | some (y, cs1) =>
    match litc '-' cs1 with
    | none => none
    | some cs2 =>
      match readD2 cs2 with
      | none => none
      | some (mo, cs3) =>
        match litc '-' cs3 with
        | none => none
        | some cs4 =>
          match readD2 cs4 with
          | none => none
          | some (d, cs5) =>
            match cs5 with
            | [] => mkDT y mo d 0 0 0
            | sep :: cs6 =>
              if sep = 'T' || sep = ' ' then parseIsoTime y mo d cs6 else none

/-- `datetime.fromisoformat` on the modelled fragment. -/
def parseIsoCore (s : String) : Option DateTime := parseIsoChars s.data

/-- Lines 303-305: `sent_at = datetime.fromisoformat(sent_at_str.rstrip("Z"))`,
as an epoch-second count. -/
def parseSentAt (s : String) : Option Int :=
  (parseIsoCore (rstripZ s)).map toEpochSeconds

/-! ## `cleanup_old_articles` (lines 285-321) -/

/-- The per-run retention window. -/
def RETENTION_DAYS : Nat := 7

/-- `cleanup_old_articles(store, retention_days)` with the ambient clock
passed explicitly: `cutoff = now - timedelta(days=retention_days)`; keep a
record when its `sent_at` is missing (or not a string), fails to parse, or is
`>= cutoff`. -/
def cleanup_old_articles (retention_days : Nat) (now : Int) : List Record → List Record
  | [] => []
  | a :: rest =>
    match a.sent_at with
    | none => a :: cleanup_old_articles retention_days now rest
    | some s =>
      match parseSentAt s with
      | none => a :: cleanup_old_articles retention_days now rest
      | some t =>
        if now - (retention_days : Int) * 86400 ≤ t then
          a :: cleanup_old_articles retention_days now rest
        else cleanup_old_articles retention_days now rest

/-! ## Claim C3 -/

/-- The keep-decision of one loop iteration of `cleanup_old_articles`. -/
def keepRecord (retention_days : Nat) (now : Int) (a : Record) : Bool :=
  match a.sent_at with
  | none => true
  | some s =>
    match parseSentAt s with
    | none => true
    | some t => decide (now - (retention_days : Int) * 86400 ≤ t)

/-! ## Link discovery (`build_archive_url`, `extract_article_links`, lines 30-53)

`sorted(set(...))` over strings is modelled by inserting each element into a
strictly increasing list, using Python's string comparison: lexicographic on
code points (`charListLt`).  `str.startswith` is modelled by `startsWithB`.
`urljoin` is a stdlib function and is passed in as the `resolve` parameter;
the archive page markup is modelled by the list of `href` attribute values of
its anchor elements, in document order. -/

/-- Python string `<`: lexicographic comparison of code-point sequences. -/
def charListLt : List Char → List Char → Bool
  | [], [] => false
  | [], _ :: _ => true
  | _ :: _, [] => false
  | a :: as, b :: bs =>
    if a.toNat < b.toNat then true
    else if b.toNat < a.toNat then false
    else charListLt as bs

def strLt (a b : String) : Bool := charListLt a.data b.data

/-- Python `s.startswith(p)`. -/
def startsWithB (s p : String) : Bool := leadsWith p.data s.data
where leadsWith : List Char → List Char → Bool
  | [], _ => true
  | _ :: _, [] => false
  | a :: as, b :: bs => a == b && leadsWith as bs

/-- Insert into a strictly increasing list, skipping duplicates. -/
def insertSorted (x : String) : List String → List String
  | [] => [x]
  | y :: ys =>
    if strLt x y then x :: y :: ys
    else if x = y then y :: ys
    else y :: insertSorted x ys

/-- `sorted(set(l))`: the strictly increasing enumeration of `l`'s elements
in Python's string order. -/
def sortDedup (l : List String) : List String :=
  l.foldl (fun acc x => insertSorted x acc) []

def BASE_URL : String := "https://english.newsfirst.lk"

/-- Python `f"{n:02d}"`. -/
def pad2 (n : Nat) : String := if n < 10 then "0" ++ toString n else toString n

/-- `build_archive_url` (lines 30-31). -/
def build_archive_url (y m d : Nat) : String :=
  BASE_URL ++ "/" ++ toString y ++ "/" ++ pad2 m ++ "/" ++ pad2 d

/-- The date-scoped filter string of line 44:
`f"{BASE_URL}/{year}/{month:02d}/{day:02d}/"`. -/
def dateScope (y m d : Nat) : String :=
  BASE_URL ++ "/" ++ toString y ++ "/" ++ pad2 m ++ "/" ++ pad2 d ++ "/"

/-- `extract_article_links` (lines 40-53) on already-fetched markup: strip
each `href`, resolve it against the archive URL (`resolve` models
`urljoin(archive_url, ·)`), keep those starting with the date scope, collect
into a set, return sorted. -/
def extract_article_links (resolve : String → String) (hrefs : List String)
    (y m d : Nat) : List String :=
  sortDedup ((hrefs.map fun h => resolve (stripStr h)).filter
    fun u => startsWithB u (dateScope y m d))

/-! ## Published-time normalization (`normalize_published_time`, lines 56-107)

The eight `strptime` patterns of the source are implemented as parsers over
the character list (each consuming the whole string, with `datetime`'s range
validation via `mkDT`; whitespace in a pattern matches a nonempty whitespace
run, and one- or two-digit numeric fields are read greedily, which agrees
with Python's `_strptime` regexes on every well-formed date and on every
string all eight patterns reject).  The optional `dateutil` parser is an
external library and is modelled as an optional parameter returning the
parsed instant (already shifted to UTC) together with its awareness flag. -/

/-- Python `strptime` `%p` (matches `AM`/`PM` case-insensitively; `true` means
PM). -/
def readAmPm : List Char → Option (Bool × List Char)
  | c1 :: c2 :: rest =>
    if (c1 = 'A' || c1 = 'a') && (c2 = 'M' || c2 = 'm') then some (false, rest)
    else if (c1 = 'P' || c1 = 'p') && (c2 = 'M' || c2 = 'm') then some (true, rest)
    else none
  | _ => none

/-- A nonempty whitespace run (whitespace in a `strptime` pattern). -/
def wsRun : List Char → Option (List Char)
  | c :: rest => if pyWs c then some (rest.dropWhile pyWs) else none
  | [] => none

/-- The `" | "` separator of the site patterns: whitespace, `|`, whitespace. -/
def midBar (cs : List Char) : Option (List Char) :=
  match wsRun cs with
  | none => none
  | some cs1 =>
    match litc '|' cs1 with
    | none => none
    | some cs2 => wsRun cs2

/-- `%d sep %m sep %Y`. -/
def readDMY (sep : Char) (cs : List Char) : Option (Nat × Nat × Nat × List Char) :=
  match readD12 cs with
  | none => none
  | some (d, cs1) =>
    match litc sep cs1 with
    | none => none
    | some cs2 =>
      match readD12 cs2 with
      | none => none
      | some (mo, cs3) =>
        match litc sep cs3 with
        | none => none
        | some cs4 =>
          match readD4 cs4 with
          | none => none
          | some (y, cs5) => some (d, mo, y, cs5)

/-- `%Y-%m-%d`. -/
def readYMD (cs : List Char) : Option (Nat × Nat × Nat × List Char) :=
  match readD4 cs with
  | none => none
  | some (y, cs1) =>
    match litc '-' cs1 with
    | none => none
    | some cs2 =>
      match readD12 cs2 with
      | none => none
      | some (mo, cs3) =>
        match litc '-' cs3 with
        | none => none
        | some cs4 =>
          match readD12 cs4 with
          | none => none
          | some (d, cs5) => some (y, mo, d, cs5)

/-- `%H:%M` / `%I:%M`. -/
def readHM (cs : List Char) : Option (Nat × Nat × List Char) :=
  match readD12 cs with
  | none => none
  | some (h, cs1) =>
    match litc ':' cs1 with
    | none => none
    | some cs2 =>
      match readD12 cs2 with
      | none => none
      | some (mi, cs3) => some (h, mi, cs3)

/-- `%H:%M:%S`. -/
def readHMS (cs : List Char) : Option (Nat × Nat × Nat × List Char) :=
  match readHM cs with
  | none => none
  | some (h, mi, cs1) =>
    match litc ':' cs1 with
    | none => none
    | some cs2 =>
      match readD12 cs2 with
      | none => none
      | some (ss, cs3) => some (h, mi, ss, cs3)

/-- `%I` with `%p`: a 1-12 hour and the PM flag give the 24-hour value. -/
def from12 (h : Nat) (pm : Bool) : Option Nat :=
  if 1 ≤ h ∧ h ≤ 12 then some (h % 12 + if pm then 12 else 0) else none

/-- `"%d-%m-%Y | %I:%M %p"` (the site's native pattern). -/
def parseFmt1 (s : String) : Option DateTime :=
  match readDMY '-' s.data with
  | none => none
  | some (d, mo, y, cs) =>
    match midBar cs with
    | none => none
    | some cs1 =>
      match readHM cs1 with
      | none => none
      | some (h, mi, cs2) =>
        match wsRun cs2 with
        | none => none
        | some cs3 =>
          match readAmPm cs3 with
          | none => none
          | some (pm, cs4) =>
            if cs4 = [] then
              match from12 h pm with
              | some hh => mkDT y mo d hh mi 0
              | none => none
            else none

/-- `"%d-%m-%Y | %H:%M"`. -/
def parseFmt2 (s : String) : Option DateTime :=
  match readDMY '-' s.data with
  | none => none
  | some (d, mo, y, cs) =>
    match midBar cs with
    | none => none
    | some cs1 =>
      match readHM cs1 with
      | none => none
      | some (h, mi, cs2) => if cs2 = [] then mkDT y mo d h mi 0 else none

/-- `"%d-%m-%Y %I:%M %p"`. -/
def parseFmt3 (s : String) : Option DateTime :=
  match readDMY '-' s.data with
  | none => none
  | some (d, mo, y, cs) =>
    match wsRun cs with
    | none => none
    | some cs1 =>
      match readHM cs1 with
      | none => none
      | some (h, mi, cs2) =>
        match wsRun cs2 with
        | none => none
        | some cs3 =>
          match readAmPm cs3 with
          | none => none
          | some (pm, cs4) =>
            if cs4 = [] then
              match from12 h pm with
              | some hh => mkDT y mo d hh mi 0
              | none => none
            else none

/-- `"%d-%m-%Y %H:%M"`. -/
def parseFmt4 (s : String) : Option DateTime :=
  match readDMY '-' s.data with
  | none => none
  | some (d, mo, y, cs) =>
    match wsRun cs with
    | none => none
    | some cs1 =>
      match readHM cs1 with
      | none => none
      | some (h, mi, cs2) => if cs2 = [] then mkDT y mo d h mi 0 else none

/-- `"%d/%m/%Y | %I:%M %p"`. -/
def parseFmt5 (s : String) : Option DateTime :=
  match readDMY '/' s.data with
  | none => none
  | some (d, mo, y, cs) =>
    match midBar cs with
    | none => none
    | some cs1 =>
      match readHM cs1 with
      | none => none
      | some (h, mi, cs2) =>
        match wsRun cs2 with
        | none => none
        | some cs3 =>
          match readAmPm cs3 with
          | none => none
          | some (pm, cs4) =>
            if cs4 = [] then
              match from12 h pm with
              | some hh => mkDT y mo d hh mi 0
              | none => none
            else none

/-- `"%Y-%m-%dT%H:%M:%S"` (the ISO-ish fallback). -/
def parseFmt6 (s : String) : Option DateTime :=
  match readYMD s.data with
  | none => none
  | some (y, mo, d, cs) =>
    match litc 'T' cs with
    | none => none
    | some cs1 =>
      match readHMS cs1 with
      | none => none
      | some (h, mi, ss, cs2) => if cs2 = [] then mkDT y mo d h mi ss else none

/-- `"%Y-%m-%d %H:%M:%S"`. -/
def parseFmt7 (s : String) : Option DateTime :=
  match readYMD s.data with
  | none => none
  | some (y, mo, d, cs) =>
    match wsRun cs with
    | none => none
    | some cs1 =>
      match readHMS cs1 with
      | none => none
      | some (h, mi, ss, cs2) => if cs2 = [] then mkDT y mo d h mi ss else none

/-- `"%Y-%m-%d %H:%M"`. -/
def parseFmt8 (s : String) : Option DateTime :=
  match readYMD s.data with
  | none => none
  | some (y, mo, d, cs) =>
    match wsRun cs with
    | none => none
    | some cs1 =>
      match readHM cs1 with
      | none => none
      | some (h, mi, cs2) => if cs2 = [] then mkDT y mo d h mi 0 else none

/-- The `formats` list of lines 81-90, tried in order with
first-success-wins semantics (lines 91-96). -/
def tryFormats (s : String) : Option DateTime :=
  [parseFmt1, parseFmt2, parseFmt3, parseFmt4,
   parseFmt5, parseFmt6, parseFmt7, parseFmt8].findSome? fun p => p s

def monthAbbr (m : Nat) : String :=
  ["Jan", "Feb", "Mar", "Apr", "May", "Jun",
   "Jul", "Aug", "Sep", "Oct", "Nov", "Dec"].getD (m - 1) "Jan"

/-- Python `f"{n:04d}"` for the year (`%Y`). -/
def pad4 (n : Nat) : String :=
  if n < 10 then "000" ++ toString n
  else if n < 100 then "00" ++ toString n
  else if n < 1000 then "0" ++ toString n
  else toString n

/-- `strftime("%d %b %Y, %I:%M %p")`. -/
def fmtDisplay (t : DateTime) : String :=
  let h12 := if t.hour % 12 = 0 then 12 else t.hour % 12
  pad2 t.day ++ " " ++ monthAbbr t.month ++ " " ++ pad4 t.year ++ ", "
    ++ pad2 h12 ++ ":" ++ pad2 t.minute ++ " " ++ (if t.hour < 12 then "AM" else "PM")

/-- The manual tail of the cascade (lines 80-107): the explicit `strptime`
patterns, then strict ISO parsing with trailing `Z` stripped, then the
stripped raw string as last resort. -/
def normTail (raw : String) : Option String :=
  match tryFormats raw with
  | some t => some (fmtDisplay t)
  | none =>
    match parseIsoCore (rstripZ raw) with
    | some t => some (fmtDisplay t)
    | none => some raw

/-- `normalize_published_time` (lines 56-107).  `du` models the optional
`dateutil` parser (`none`: the import failed); on success it yields the
instant already converted to UTC plus its original awareness flag (an aware
instant is displayed with a trailing `" UTC"`), and on a parse exception the
code falls through to the manual cascade.  After the `if not raw` guard the
raw string is stripped once and every later attempt, including the verbatim
last resort of line 107, works on the stripped string. -/
def normalize_published_time (du : Option (String → Option (DateTime × Bool))) :
    Option String → Option String
  | none => none
  | some raw0 =>
    if raw0 = "" then none
    else
      match du with
      | some f =>
        match f (stripStr raw0) with
        | some (t, aware) => some (fmtDisplay t ++ (if aware then " UTC" else ""))
        | none => normTail (stripStr raw0)
      | none => normTail (stripStr raw0)

/-- Lines 234-237 of `extract_article_content`:
`published = published_norm if published_norm else "Unknown"`. -/
def publishedOf (du : Option (String → Option (DateTime × Bool)))
    (published_raw : Option String) : String :=
  match normalize_published_time du published_raw with
  | none => "Unknown"
  | some s => if s = "" then "Unknown" else s

/-! ## Fingerprinter (`generate_content_hash`, lines 247-253)

`hashlib.sha256(normalized.encode("utf-8", errors="ignore")).hexdigest()` is
embedded in full: UTF-8 encoding of the code points (Lean `Char`s are valid
scalar values, so `errors="ignore"` never has anything to drop), the FIPS
180-4 compression over byte lists, and lowercase hex display.  All words are
`Nat`s reduced modulo `2^32`. -/

/-- UTF-8 encoding of one code point. -/
def utf8Char (c : Char) : List Nat :=
  let n := c.toNat
  if n < 128 then [n]
  else if n < 2048 then [192 ||| (n >>> 6), 128 ||| (n &&& 63)]
  else if n < 65536 then
    [224 ||| (n >>> 12), 128 ||| ((n >>> 6) &&& 63), 128 ||| (n &&& 63)]
  else
    [240 ||| (n >>> 18), 128 ||| ((n >>> 12) &&& 63),
     128 ||| ((n >>> 6) &&& 63), 128 ||| (n &&& 63)]

/-- Python `s.encode("utf-8")` as a byte list. -/
def utf8Bytes (s : String) : List Nat :=
  s.data.foldr (fun c acc => utf8Char c ++ acc) []

def w32 (n : Nat) : Nat := n % 4294967296

def rotr32 (x n : Nat) : Nat := w32 ((x >>> n) ||| (x <<< (32 - n)))

def bigSigma0 (x : Nat) : Nat := rotr32 x 2 ^^^ rotr32 x 13 ^^^ rotr32 x 22

def bigSigma1 (x : Nat) : Nat := rotr32 x 6 ^^^ rotr32 x 11 ^^^ rotr32 x 25

def smallSigma0 (x : Nat) : Nat := rotr32 x 7 ^^^ rotr32 x 18 ^^^ (x >>> 3)

def smallSigma1 (x : Nat) : Nat := rotr32 x 17 ^^^ rotr32 x 19 ^^^ (x >>> 10)

def chFn (x y z : Nat) : Nat := (x &&& y) ^^^ ((x ^^^ 4294967295) &&& z)

def majFn (x y z : Nat) : Nat := (x &&& y) ^^^ (x &&& z) ^^^ (y &&& z)

/-- The 64 SHA-256 round constants of FIPS 180-4 (in decimal). -/
def K256 : List Nat :=
  [1116352408, 1899447441, 3049323471, 3921009573, 961987163, 1508970993,
   2453635748, 2870763221, 3624381080, 310598401, 607225278, 1426881987,
   1925078388, 2162078206, 2614888103, 3248222580, 3835390401, 4022224774,
   264347078, 604807628, 770255983, 1249150122, 1555081692, 1996064986,
   2554220882, 2821834349, 2952996808, 3210313671, 3336571891, 3584528711,
   113926993, 338241895, 666307205, 773529912, 1294757372, 1396182291,
   1695183700, 1986661051, 2177026350, 2456956037, 2730485921, 2820302411,
   3259730800, 3345764771, 3516065817, 3600352804, 4094571909, 275423344,
   430227734, 506948616, 659060556, 883997877, 958139571, 1322822218,
   1537002063, 1747873779, 1955562222, 2024104815, 2227730452, 2361852424,
   2428436474, 2756734187, 3204031479, 3329325298]

structure Digest where
  h0 : Nat
  h1 : Nat
  h2 : Nat
  h3 : Nat
  h4 : Nat
  h5 : Nat
  h6 : Nat
  h7 : Nat

def initDigest : Digest :=
  ⟨1779033703, 3144134277, 1013904242, 2773480762,
   1359893119, 2600822924, 528734635, 1541459225⟩

structure Regs where
  a : Nat
  b : Nat
  c : Nat
  d : Nat
  e : Nat
  f : Nat
  g : Nat
  h : Nat

/-- One compression round; `wk` is the pair (schedule word, round constant). -/
def compressStep (st : Regs) (wk : Nat × Nat) : Regs :=
  let t1 := w32 (st.h + bigSigma1 st.e + chFn st.e st.f st.g + wk.2 + wk.1)
  let t2 := w32 (bigSigma0 st.a + majFn st.a st.b st.c)
  ⟨w32 (t1 + t2), st.a, st.b, st.c, w32 (st.d + t1), st.e, st.f, st.g⟩

/-- Extend the message schedule by one word. -/
def stepW (ws : List Nat) : List Nat :=
  let i := ws.length
  ws ++ [w32 (smallSigma1 (ws.getD (i - 2) 0) + ws.getD (i - 7) 0
    + smallSigma0 (ws.getD (i - 15) 0) + ws.getD (i - 16) 0)]

/-- The 64-word message schedule from the 16 block words. -/
def fullW (block : List Nat) : List Nat :=
  (List.range 48).foldl (fun acc _ => stepW acc) block

def processBlock (H : Digest) (block : List Nat) : Digest :=
  let fin := ((fullW block).zip K256).foldl compressStep
    ⟨H.h0, H.h1, H.h2, H.h3, H.h4, H.h5, H.h6, H.h7⟩
  ⟨w32 (H.h0 + fin.a), w32 (H.h1 + fin.b), w32 (H.h2 + fin.c), w32 (H.h3 + fin.d),
   w32 (H.h4 + fin.e), w32 (H.h5 + fin.f), w32 (H.h6 + fin.g), w32 (H.h7 + fin.h)⟩

/-- The bit length as eight big-endian bytes. -/
def be8 (n : Nat) : List Nat :=
  [(n >>> 56) % 256, (n >>> 48) % 256, (n >>> 40) % 256, (n >>> 32) % 256,
   (n >>> 24) % 256, (n >>> 16) % 256, (n >>> 8) % 256, n % 256]

/-- FIPS 180-4 padding: `0x80`, zeros to 56 mod 64, 8-byte bit length. -/
def padMessage (msg : List Nat) : List Nat :=
  msg ++ 128 :: List.replicate ((119 - msg.length % 64) % 64) 0 ++ be8 (msg.length * 8)

/-- Big-endian 4-byte groups to 32-bit words. -/
def bytesToWords : List Nat → List Nat
  | b0 :: b1 :: b2 :: b3 :: rest =>
    (((b0 * 256 + b1) * 256 + b2) * 256 + b3) :: bytesToWords rest
  | _ => []

def wordsToBlocksGo : Nat → List Nat → List (List Nat)
  | 0, _ => []
  | _, [] => []
  | n + 1, ws => ws.take 16 :: wordsToBlocksGo n (ws.drop 16)

def wordsToBlocks (ws : List Nat) : List (List Nat) := wordsToBlocksGo ws.length ws

def sha256Digest (msg : List Nat) : Digest :=
  (wordsToBlocks (bytesToWords (padMessage msg))).foldl processBlock initDigest

/-- The lowercase hex digit of a nibble (48 is `'0'`, 87 + 10 is `'a'`). -/
def hexDigit (n : Nat) : Char :=
  Char.ofNat (if n % 16 < 10 then 48 + n % 16 else 87 + n % 16)

def wordHex (w : Nat) : List Char :=
  [hexDigit (w >>> 28), hexDigit (w >>> 24), hexDigit (w >>> 20), hexDigit (w >>> 16),
   hexDigit (w >>> 12), hexDigit (w >>> 8), hexDigit (w >>> 4), hexDigit w]

/-- `hexdigest()`: the full 64-character lowercase hex display. -/
def digestHex (d : Digest) : String :=
  ⟨wordHex d.h0 ++ wordHex d.h1 ++ wordHex d.h2 ++ wordHex d.h3
    ++ wordHex d.h4 ++ wordHex d.h5 ++ wordHex d.h6 ++ wordHex d.h7⟩

/-- `generate_content_hash(title, body)` (lines 247-253):
`sha256(((title or "").strip() + "\n\n" + (body or "").strip()).encode("utf-8")).hexdigest()`. -/
def generate_content_hash (title body : String) : String :=
  digestHex (sha256Digest (utf8Bytes (stripStr title ++ "\n\n" ++ stripStr body)))

/-- A lowercase hexadecimal digit. -/
def isLowerHex (c : Char) : Bool :=
  c.isDigit || ('a' ≤ c && c ≤ 'f')

/-! ## Dispatch and the per-candidate orchestrator step (lines 381-394, 434-456) -/

/-- What the messaging transport reports for one `requests.post` call:
a 2xx response, a non-2xx response (`raise_for_status()` raises
`requests.HTTPError`), or a network error/timeout (`requests.post` itself
raises). -/
inductive TransportResult where
  | ok2xx : TransportResult
  | httpErr : TransportResult
  | netErr : TransportResult
deriving DecidableEq

/-- `send_telegram_message` (lines 381-394): the `try` block wraps only
`resp.raise_for_status()` and catches only `requests.HTTPError`, logging it
and returning normally; an exception raised by `requests.post` itself
propagates to the caller (`.error`). -/
def send_telegram_message : TransportResult → Except Unit Unit
  | .netErr => .error ()
  | .httpErr => .ok ()
  | .ok2xx => .ok ()

inductive StepOutcome where
  | sentOut : StepOutcome
  | skippedOut : StepOutcome
  | erroredOut : StepOutcome
deriving DecidableEq

/-- `save_sent_article` (lines 352-367): append a record with
`sent_at = now` to the in-memory store. -/
def save_sent_article (url content_hash title now : String)
    (store : List Record) : List Record :=
  store ++ [⟨some url, some content_hash, some title, some now⟩]

/-- One iteration of the `main` loop (lines 434-456) for a candidate whose
extraction already produced `title` and `body`: hash, duplicate-check, then
skip, or dispatch; whenever `send_telegram_message` returns normally the
article is recorded via `save_sent_article` (line 449) and persisted; an
exception is caught by the per-candidate handler (lines 454-456), counted as
an error, and leaves the store unchanged. -/
def processCandidate (store : List Record) (url title body now : String)
    (tr : TransportResult) : List Record × StepOutcome :=
  let content_hash := generate_content_hash title body
  if (is_article_sent url content_hash store).1 then (store, .skippedOut)
  else
    match send_telegram_message tr with
    | .error _ => (store, .erroredOut)
    | .ok _ => (save_sent_article url content_hash title now store, .sentOut)

/-! ## Theorems -/

/-! ## Helper lemmas about the string helpers -/

theorem length_takeChars_le (s : String) (n : Nat) : (takeChars s n).length ≤ n := by
  show (s.data.take n).length ≤ n
  exact List.length_take_le n s.data

theorem length_rstripStr_le (s : String) : (rstripStr s).length ≤ s.length := by
  show (s.data.reverse.dropWhile pyWs).reverse.length ≤ s.data.length
  rw [List.length_reverse]
  calc (s.data.reverse.dropWhile pyWs).length
      ≤ s.data.reverse.length := (List.dropWhile_sublist _).length_le
    _ = s.data.length := List.length_reverse _

theorem mem_dropWhile_of_neg {p : α → Bool} {x : α} :
    ∀ {l : List α}, x ∈ l → p x = false → x ∈ l.dropWhile p
  | a :: l, hx, hpx => by
    by_cases hpa : p a = true
    · rw [List.dropWhile_cons_of_pos hpa]
      rcases List.mem_cons.mp hx with h | h
      · subst h; simp [hpa] at hpx
      · exact mem_dropWhile_of_neg h hpx
    · rw [List.dropWhile_cons_of_neg hpa]
      exact hx

theorem stripStr_ne_empty {s : String} {c : Char}
    (hc : c ∈ s.data) (hw : pyWs c = false) : ¬ stripStr s = "" := by
  intro h
  have h1 : c ∈ (s.data.dropWhile pyWs) := mem_dropWhile_of_neg hc hw
  have h2 : c ∈ ((s.data.dropWhile pyWs).reverse.dropWhile pyWs) :=
    mem_dropWhile_of_neg (List.mem_reverse.mpr h1) hw
  have h3 : c ∈ ((s.data.dropWhile pyWs).reverse.dropWhile pyWs).reverse :=
    List.mem_reverse.mpr h2
  have : ((s.data.dropWhile pyWs).reverse.dropWhile pyWs).reverse = [] := by
    have := congrArg String.data h
    simpa [stripStr] using this
  rw [this] at h3
  exact List.not_mem_nil c h3

/-! ## Claims C5 and C6: body bounds and the placeholder fallback -/

/-- Claim C5: for every article markup, the extracted body has length at most
3503 characters (3500 plus the 3-character ellipsis marker), truncation is
applied if and only if the joined paragraph text exceeds 3500 characters, and
when no truncation occurs the body equals the raw joined text. -/
theorem extract_body_length_bound (ps : List String) :
    (buildBody ps).length ≤ 3503
    ∧ ((rawBody ps).length ≤ 3500 → buildBody ps = rawBody ps)
    ∧ (3500 < (rawBody ps).length →
        buildBody ps = rstripStr (takeChars (rawBody ps) 3500) ++ "...") := by
  unfold buildBody
  by_cases h : 3500 < (rawBody ps).length
  · rw [if_pos h]
    refine ⟨?_, fun hle => absurd h (Nat.not_lt.mpr hle), fun _ => rfl⟩
    rw [String.length_append]
    have h1 := length_rstripStr_le (takeChars (rawBody ps) 3500)
    have h2 := length_takeChars_le (rawBody ps) 3500
    have h3 : ("..." : String).length = 3 := rfl
    omega
  · rw [if_neg h]
    exact ⟨by omega, fun _ => rfl, fun hgt => absurd hgt h⟩

/-- Witness for C5 at a concrete input: a single 35-character paragraph
survives the filter and is returned untruncated. -/
theorem extract_body_length_bound_witness :
    (rawBody ["aaaaaaaaaaaaaaaaaaaaaaaaaaaaaaaaaaa"]).length ≤ 3500
    ∧ buildBody ["aaaaaaaaaaaaaaaaaaaaaaaaaaaaaaaaaaa"]
      = rawBody ["aaaaaaaaaaaaaaaaaaaaaaaaaaaaaaaaaaa"] :=
  ⟨by decide, (extract_body_length_bound ["aaaaaaaaaaaaaaaaaaaaaaaaaaaaaaaaaaa"]).2.1 (by decide)⟩

/-- Claim C6: when no paragraph reaches 30 characters the extraction still
succeeds and yields the fixed placeholder body, and no paragraph shorter than
30 characters is ever among the joined paragraphs. -/
theorem extract_body_placeholder (ps : List String) :
    ((∀ p ∈ ps, p.length < 30) → buildBody ps = placeholderBody)
    ∧ (∀ q ∈ (selectParagraphs ps).take 4, 30 ≤ q.length ∨ q = placeholderBody) := by
  constructor
  · intro hshort
    have hfil : ps.filter (fun t => !t.isEmpty && decide (30 ≤ t.length)) = [] := by
      rw [List.filter_eq_nil_iff]
      intro p hp
      have : decide (30 ≤ p.length) = false := decide_eq_false (Nat.not_le.mpr (hshort p hp))
      simp [this]
    have hsel : selectParagraphs ps = [placeholderBody] := by
      unfold selectParagraphs
      rw [hfil]
      rfl
    have hraw : rawBody ps = placeholderBody := by
      unfold rawBody
      rw [hsel]
      rfl
    unfold buildBody
    rw [hraw]
    rfl
  · intro q hq
    have hq' : q ∈ selectParagraphs ps := List.mem_of_mem_take hq
    unfold selectParagraphs at hq'
    by_cases hk : (ps.filter (fun t => !t.isEmpty && decide (30 ≤ t.length))).isEmpty
    · rw [if_pos hk] at hq'
      right
      simpa using hq'
    · rw [if_neg hk] at hq'
      left
      have := (List.mem_filter.mp hq').2
      have := (Bool.and_elim_right this)
      exact of_decide_eq_true this

/-- Witness for C6 at a concrete input: two short paragraphs yield the
placeholder body. -/
theorem extract_body_placeholder_witness :
    buildBody ["tiny", ""] = placeholderBody :=
  (extract_body_placeholder ["tiny", ""]).1 (by decide)

/-! ## Claims C7 and C8 -/

/-- Claim C7: if the backing tracking file is absent, empty, unreadable, not
valid JSON, or valid JSON that is not a dict with an `articles` list, then
`load_sent_articles` returns a fresh empty store instead of raising. -/
theorem load_empty_on_bad_file (raw : String) (parsed : Option Json) (j : Json) :
    load_sent_articles .absent = []
    ∧ load_sent_articles .readErr = []
    ∧ (stripStr raw = "" → load_sent_articles (.content raw parsed) = [])
    ∧ load_sent_articles (.content raw none) = []
    ∧ (getArticles j = none → load_sent_articles (.content raw (some j)) = []) := by
  have heq : ∀ (r : String) (p : Option Json),
      load_sent_articles (.content r p)
        = if stripStr r = "" then []
          else
            match p with
            | none => []
            | some j =>
              match getArticles j with
              | some items => items
              | none => [] := fun _ _ => rfl
  refine ⟨rfl, rfl, fun h => by rw [heq]; simp [h], ?_, ?_⟩
  · rw [heq]
    split <;> rfl
  · intro hj
    rw [heq]
    split
    · rfl
    · show (match getArticles j with | some items => items | none => []) = []
      rw [hj]

/-- Witness for C7 at concrete inputs: a blank file and a well-formed JSON
number both load as the empty store. -/
theorem load_empty_on_bad_file_witness :
    load_sent_articles (.content " \n " (some .null)) = []
    ∧ load_sent_articles (.content "5" (some (.num 5))) = [] :=
  ⟨(load_empty_on_bad_file " \n " (some .null) .null).2.2.1 (by decide),
   (load_empty_on_bad_file "5" (some (.num 5)) (.num 5)).2.2.2.2 rfl⟩

theorem decode_encodeSent (r : SentRecord) : decodeRecord (encodeSent r) = sentToRecord r := rfl

theorem stripStr_persistRaw_ne_empty (recs : List SentRecord) :
    ¬ stripStr (persistRaw recs) = "" := by
  apply stripStr_ne_empty (c := lbrace)
  · show lbrace ∈ (dumps (storeJson recs) ++ "\n").data
    rw [String.data_append]
    apply List.mem_append_left
    show lbrace ∈ (dumps (Json.obj [("articles", Json.arr (recs.map encodeSent))])).data
    rw [show dumps (Json.obj [("articles", Json.arr (recs.map encodeSent))])
        = lbraceS ++ dumpsFields [("articles", Json.arr (recs.map encodeSent))] ++ rbraceS
        from by rw [dumps]]
    rw [String.data_append, String.data_append]
    exact List.mem_append_left _ (List.mem_append_left _ (by simp [lbraceS, String.singleton]))
  · decide

/-- Claim C8: persisting a store of well-formed records and loading the file
back yields exactly the original records (read through the consumers'
accessors); in particular the set of records is unchanged. -/
theorem persist_load_roundtrip (recs : List SentRecord) :
    (load_sent_articles (.content (persistRaw recs) (some (storeJson recs)))).map decodeRecord
      = recs.map sentToRecord := by
  have heq : load_sent_articles (.content (persistRaw recs) (some (storeJson recs)))
      = if stripStr (persistRaw recs) = "" then []
        else
          match getArticles (storeJson recs) with
          | some items => items
          | none => [] := rfl
  rw [heq, if_neg (stripStr_persistRaw_ne_empty recs)]
  rw [show getArticles (storeJson recs) = some (recs.map encodeSent) from rfl]
  show (recs.map encodeSent).map decodeRecord = recs.map sentToRecord
  rw [List.map_map]
  rfl

/-! ## Claim C2 -/

theorem is_article_sent_skip (url content_hash : String) :
    ∀ (pre rest : List Record),
    (∀ p ∈ pre, p.url ≠ some url ∧ p.content_hash ≠ some content_hash) →
    is_article_sent url content_hash (pre ++ rest) = is_article_sent url content_hash rest
  | [], _, _ => rfl
  | a :: pre, rest, h => by
    have ha := h a (List.mem_cons_self a pre)
    show (if a.url = some url then _ else if a.content_hash = some content_hash then _ else
      is_article_sent url content_hash (pre ++ rest)) = _
    rw [if_neg ha.1, if_neg ha.2]
    exact is_article_sent_skip url content_hash pre rest
      (fun p hp => h p (List.mem_cons_of_mem a hp))

theorem is_article_sent_false_iff (url content_hash : String) :
    ∀ store : List Record,
    is_article_sent url content_hash store = (false, none)
      ↔ ∀ r ∈ store, r.url ≠ some url ∧ r.content_hash ≠ some content_hash
  | [] => by simp [is_article_sent]
  | a :: rest => by
    by_cases h1 : a.url = some url
    · show (if a.url = some url then ((true : Bool), some (urlReason a.sent_at)) else _)
        = (false, none) ↔ _
      rw [if_pos h1]
      simp only [List.forall_mem_cons]
      constructor
      · intro h; exact absurd (congrArg Prod.fst h) (by simp)
      · intro h; exact absurd h1 h.1.1
    · by_cases h2 : a.content_hash = some content_hash
      · show (if a.url = some url then _ else if a.content_hash = some content_hash
            then ((true : Bool), some (contentReason a.sent_at)) else _)
          = (false, none) ↔ _
        rw [if_neg h1, if_pos h2]
        simp only [List.forall_mem_cons]
        constructor
        · intro h; exact absurd (congrArg Prod.fst h) (by simp)
        · intro h; exact absurd h2 h.1.2
      · show (if a.url = some url then _ else if a.content_hash = some content_hash
            then _ else is_article_sent url content_hash rest) = (false, none) ↔ _
        rw [if_neg h1, if_neg h2]
        rw [is_article_sent_false_iff url content_hash rest]
        simp only [List.forall_mem_cons]
        exact ⟨fun h => ⟨⟨h1, h2⟩, h⟩, fun h => h.2⟩

/-- Claim C2, amended: `is_article_sent` scans the records in order and,
within each record, compares the URL before the content hash.  It returns
`(false, none)` exactly when no record matches by URL or by hash; otherwise
the first matching record decides the result, with the URL reason when that
record matched by URL and the content reason when it matched only by hash.
(URL priority holds per record, not across the whole store.) -/
theorem is_article_sent_characterization (url content_hash : String) (store : List Record) :
    (is_article_sent url content_hash store = (false, none)
      ↔ ∀ r ∈ store, r.url ≠ some url ∧ r.content_hash ≠ some content_hash)
    ∧ (∀ (pre : List Record) (r : Record) (post : List Record),
        store = pre ++ r :: post →
        (∀ p ∈ pre, p.url ≠ some url ∧ p.content_hash ≠ some content_hash) →
        (r.url = some url →
          is_article_sent url content_hash store = (true, some (urlReason r.sent_at)))
        ∧ (r.url ≠ some url → r.content_hash = some content_hash →
          is_article_sent url content_hash store = (true, some (contentReason r.sent_at)))) := by
  refine ⟨is_article_sent_false_iff url content_hash store, ?_⟩
  intro pre r post hstore hpre
  subst hstore
  rw [is_article_sent_skip url content_hash pre (r :: post) hpre]
  constructor
  · intro hu
    show (if r.url = some url then _ else _) = _
    rw [if_pos hu]
  · intro hu hh
    show (if r.url = some url then _ else if r.content_hash = some content_hash then _ else _) = _
    rw [if_neg hu, if_pos hh]

/-- Witness for C2 (amended) at concrete inputs: a store whose only record
matches by URL yields the URL reason, and one whose only record matches only
by hash yields the content reason. -/
theorem is_article_sent_characterization_witness :
    is_article_sent "u" "f" [⟨some "u", some "g", some "t", some "2026-01-01T00:00:00Z"⟩]
      = (true, some (urlReason (some "2026-01-01T00:00:00Z")))
    ∧ is_article_sent "u" "f" [⟨some "v", some "f", some "t", none⟩]
      = (true, some (contentReason none)) :=
  ⟨(((is_article_sent_characterization "u" "f" _).2 []
      ⟨some "u", some "g", some "t", some "2026-01-01T00:00:00Z"⟩ [] rfl (by decide)).1 rfl),
   (((is_article_sent_characterization "u" "f" _).2 []
      ⟨some "v", some "f", some "t", none⟩ [] rfl (by decide)).2 (by decide) rfl)⟩

/-- Counterexample to C2 as stated: in this store the second record's URL
equals the candidate URL, yet the result carries the content reason (the
first record's hash matched first), not a URL-match reason.  Store-wide URL
priority fails. -/
theorem is_article_sent_url_priority_cex :
    (([⟨some "https://x/a", some "F", some "t1", none⟩,
       ⟨some "https://x/u", some "G", some "t2", none⟩] : List Record).any
        fun r => r.url == some "https://x/u") = true
    ∧ is_article_sent "https://x/u" "F"
        [⟨some "https://x/a", some "F", some "t1", none⟩,
         ⟨some "https://x/u", some "G", some "t2", none⟩]
      = (true, some "Content already sent previously") := by
  constructor
  · decide
  · decide

theorem cleanup_cons (rd : Nat) (now : Int) (b : Record) (rest : List Record) :
    cleanup_old_articles rd now (b :: rest)
      = if keepRecord rd now b then b :: cleanup_old_articles rd now rest
        else cleanup_old_articles rd now rest := by
  show (match b.sent_at with
    | none => b :: cleanup_old_articles rd now rest
    | some s =>
      match parseSentAt s with
      | none => b :: cleanup_old_articles rd now rest
      | some t =>
        if now - (rd : Int) * 86400 ≤ t then b :: cleanup_old_articles rd now rest
        else cleanup_old_articles rd now rest) = _
  unfold keepRecord
  rcases b.sent_at with _ | s
  · rfl
  · show (match parseSentAt s with
      | none => b :: cleanup_old_articles rd now rest
      | some t =>
        if now - (rd : Int) * 86400 ≤ t then b :: cleanup_old_articles rd now rest
        else cleanup_old_articles rd now rest)
      = if (match parseSentAt s with
            | none => true
            | some t => decide (now - (rd : Int) * 86400 ≤ t)) then _ else _
    rcases parseSentAt s with _ | t
    · rfl
    · show (if now - (rd : Int) * 86400 ≤ t then b :: cleanup_old_articles rd now rest
          else cleanup_old_articles rd now rest)
        = if decide (now - (rd : Int) * 86400 ≤ t) then _ else _
      by_cases hc : now - (rd : Int) * 86400 ≤ t
      · rw [if_pos hc, if_pos (decide_eq_true hc)]
      · rw [if_neg hc, if_neg (by simpa using hc)]

theorem cleanup_eq_filter (rd : Nat) (now : Int) :
    ∀ store : List Record,
    cleanup_old_articles rd now store = store.filter (keepRecord rd now)
  | [] => rfl
  | b :: rest => by
    rw [cleanup_cons, List.filter_cons, cleanup_eq_filter rd now rest]

theorem keepRecord_iff (rd : Nat) (now : Int) (a : Record) :
    keepRecord rd now a = true
      ↔ ∀ s t, a.sent_at = some s → parseSentAt s = some t
          → now - (rd : Int) * 86400 ≤ t := by
  unfold keepRecord
  rcases h1 : a.sent_at with _ | s
  · simp
  · rcases h2 : parseSentAt s with _ | t
    · simp only [h2]
      constructor
      · intro _ s' t hs' hp
        have : s = s' := Option.some.inj hs'
        subst this
        rw [h2] at hp
        exact absurd hp (by simp)
      · intro _; trivial
    · simp only [h2, decide_eq_true_eq]
      constructor
      · intro h s' t' hs' hp
        have : s = s' := Option.some.inj hs'
        subst this
        rw [h2] at hp
        have : t = t' := Option.some.inj hp
        subst this
        exact h
      · intro h; exact h s t rfl h2

/-- Claim C3: pruning with the default 7-day retention removes exactly those
records whose `sent_at` parses successfully to an instant strictly older than
`now` minus 7 days (604800 seconds); records with a missing or unparsable
timestamp are kept regardless of age, and nothing new is ever added. -/
theorem cleanup_removes_exactly_old (now : Int) (store : List Record) (a : Record) :
    (a ∈ cleanup_old_articles 7 now store → a ∈ store)
    ∧ (a ∈ store →
        (a ∈ cleanup_old_articles 7 now store
          ↔ ∀ s t, a.sent_at = some s → parseSentAt s = some t → now - 604800 ≤ t)) := by
  rw [cleanup_eq_filter 7 now store]
  have hnum : ((7 : Nat) : Int) * 86400 = 604800 := by norm_num
  constructor
  · intro h; exact (List.mem_filter.mp h).1
  · intro hmem
    rw [List.mem_filter]
    rw [show (∀ s t, a.sent_at = some s → parseSentAt s = some t → now - 604800 ≤ t)
        = (∀ s t, a.sent_at = some s → parseSentAt s = some t
            → now - ((7 : Nat) : Int) * 86400 ≤ t) from by rw [hnum]]
    rw [← keepRecord_iff 7 now a]
    exact ⟨fun h => h.2, fun h => ⟨hmem, h⟩⟩

/-- Witness for C3 at concrete inputs, with `now = 2026-01-20T00:00:00` (epoch
second 1768867200): a record sent exactly 8 days earlier is removed, one sent
exactly 6 days earlier is kept, and one with an unparsable timestamp is
kept. -/
theorem cleanup_removes_exactly_old_witness :
    (⟨some "u8", some "h", some "t", some "2026-01-12T00:00:00Z"⟩ : Record)
      ∉ cleanup_old_articles 7 1768867200
          [⟨some "u8", some "h", some "t", some "2026-01-12T00:00:00Z"⟩]
    ∧ (⟨some "u6", some "h", some "t", some "2026-01-14T00:00:00Z"⟩ : Record)
      ∈ cleanup_old_articles 7 1768867200
          [⟨some "u6", some "h", some "t", some "2026-01-14T00:00:00Z"⟩]
    ∧ (⟨some "ub", some "h", some "t", some "not-a-date"⟩ : Record)
      ∈ cleanup_old_articles 7 1768867200
          [⟨some "ub", some "h", some "t", some "not-a-date"⟩] := by
  refine ⟨?_, ?_, ?_⟩
  · intro hmem
    have h := ((cleanup_removes_exactly_old 1768867200 _ _).2
        (List.mem_singleton.mpr rfl)).mp hmem "2026-01-12T00:00:00Z" 1768176000 rfl (by decide)
    exact absurd h (by decide)
  · refine ((cleanup_removes_exactly_old 1768867200 _ _).2
        (List.mem_singleton.mpr rfl)).mpr ?_
    intro s t hs hp
    have hs' : "2026-01-14T00:00:00Z" = s := Option.some.inj hs
    subst hs'
    have hval : parseSentAt "2026-01-14T00:00:00Z" = some 1768348800 := by decide
    rw [hval] at hp
    have ht : (1768348800 : Int) = t := Option.some.inj hp
    subst ht
    decide
  · refine ((cleanup_removes_exactly_old 1768867200 _ _).2
        (List.mem_singleton.mpr rfl)).mpr ?_
    intro s t hs hp
    have hs' : "not-a-date" = s := Option.some.inj hs
    subst hs'
    have hval : parseSentAt "not-a-date" = none := by decide
    rw [hval] at hp
    exact absurd hp (by simp)

theorem charToNat_inj (a b : Char) (h : a.toNat = b.toNat) : a = b := by
  apply Char.eq_of_val_eq
  apply UInt32.eq_of_val_eq
  exact Fin.eq_of_val_eq h

theorem stringDataInj {a b : String} (h : a.data = b.data) : a = b := by
  cases a
  cases b
  exact congrArg String.mk h

theorem charListLt_total :
    ∀ x y : List Char, charListLt x y = false → x ≠ y → charListLt y x = true
  | [], [] => fun _ h => absurd rfl h
  | [], _ :: _ => fun h _ => absurd h (by simp [charListLt])
  | _ :: _, [] => fun _ _ => rfl
  | a :: as, b :: bs => by
    intro h hne
    by_cases h1 : a.toNat < b.toNat
    · exact absurd h (by simp [charListLt, h1])
    · by_cases h2 : b.toNat < a.toNat
      · show (if b.toNat < a.toNat then true
          else if a.toNat < b.toNat then false else charListLt bs as) = true
        rw [if_pos h2]
      · have hab : a = b := charToNat_inj a b (by omega)
        subst hab
        have h' : charListLt as bs = false := by
          have h0 := h
          show charListLt as bs = false
          revert h0
          show (if a.toNat < a.toNat then true
            else if a.toNat < a.toNat then false else charListLt as bs) = false → _
          rw [if_neg h1, if_neg h1]
          exact id
        have hne' : as ≠ bs := fun hh => hne (by rw [hh])
        show (if a.toNat < a.toNat then true
          else if a.toNat < a.toNat then false else charListLt bs as) = true
        rw [if_neg h1, if_neg h1]
        exact charListLt_total as bs h' hne'

theorem charListLt_nil_right : ∀ y : List Char, charListLt y [] = false
  | [] => rfl
  | _ :: _ => rfl

theorem charListLt_trans :
    ∀ x y z : List Char, charListLt x y = true → charListLt y z = true
      → charListLt x z = true
  | _, y, [] => fun _ h2 => absurd h2 (by simp [charListLt_nil_right y])
  | [], _, _ :: _ => fun _ _ => rfl
  | _ :: _, [], _ :: _ => fun h1 _ => absurd h1 (by simp [charListLt])
  | a :: as, b :: bs, c :: cs => by
    intro h1 h2
    show (if a.toNat < c.toNat then true
      else if c.toNat < a.toNat then false else charListLt as cs) = true
    replace h1 : (if a.toNat < b.toNat then true
        else if b.toNat < a.toNat then false else charListLt as bs) = true := h1
    replace h2 : (if b.toNat < c.toNat then true
        else if c.toNat < b.toNat then false else charListLt bs cs) = true := h2
    by_cases hab : a.toNat < b.toNat
    · by_cases hbc : b.toNat < c.toNat
      · rw [if_pos (by omega : a.toNat < c.toNat)]
      · by_cases hcb : c.toNat < b.toNat
        · rw [if_neg hbc, if_pos hcb] at h2
          exact absurd h2 (by simp)
        · rw [if_pos (by omega : a.toNat < c.toNat)]
    · by_cases hba : b.toNat < a.toNat
      · rw [if_neg hab, if_pos hba] at h1
        exact absurd h1 (by simp)
      · rw [if_neg hab, if_neg hba] at h1
        by_cases hbc : b.toNat < c.toNat
        · rw [if_pos (by omega : a.toNat < c.toNat)]
        · by_cases hcb : c.toNat < b.toNat
          · rw [if_neg hbc, if_pos hcb] at h2
            exact absurd h2 (by simp)
          · rw [if_neg hbc, if_neg hcb] at h2
            rw [if_neg (by omega : ¬ a.toNat < c.toNat),
              if_neg (by omega : ¬ c.toNat < a.toNat)]
            exact charListLt_trans as bs cs h1 h2

theorem strLt_total (a b : String) (h : strLt a b = false) (hne : a ≠ b) :
    strLt b a = true :=
  charListLt_total a.data b.data h (fun hh => hne (stringDataInj hh))

theorem strLt_trans {a b c : String} (h1 : strLt a b = true) (h2 : strLt b c = true) :
    strLt a c = true :=
  charListLt_trans a.data b.data c.data h1 h2

theorem mem_insertSorted (x a : String) :
    ∀ l : List String, a ∈ insertSorted x l ↔ a = x ∨ a ∈ l
  | [] => by simp [insertSorted]
  | y :: ys => by
    unfold insertSorted
    by_cases h1 : strLt x y
    · rw [if_pos h1]; simp
    · rw [if_neg h1]
      by_cases h2 : x = y
      · rw [if_pos h2]
        subst h2
        simp only [List.mem_cons]
        constructor
        · intro h; exact Or.inr h
        · rintro (h | h)
          · exact Or.inl h
          · exact h
      · rw [if_neg h2]
        simp only [List.mem_cons, mem_insertSorted x a ys]
        tauto

theorem pairwise_insertSorted (x : String) :
    ∀ l : List String, l.Pairwise (fun a b => strLt a b = true)
      → (insertSorted x l).Pairwise (fun a b => strLt a b = true)
  | [], _ => List.pairwise_singleton _ _
  | y :: ys, hp => by
    unfold insertSorted
    rcases List.pairwise_cons.mp hp with ⟨hy, hys⟩
    by_cases h1 : strLt x y
    · rw [if_pos h1]
      exact List.pairwise_cons.mpr ⟨by
        intro z hz
        rcases List.mem_cons.mp hz with h | h
        · subst h; exact h1
        · exact strLt_trans h1 (hy z h), hp⟩
    · rw [if_neg h1]
      by_cases h2 : x = y
      · rw [if_pos h2]; exact hp
      · rw [if_neg h2]
        have hyx : strLt y x = true := strLt_total x y (by simpa using h1) h2
        refine List.pairwise_cons.mpr ⟨?_, pairwise_insertSorted x ys hys⟩
        intro z hz
        rcases (mem_insertSorted x z ys).mp hz with h | h
        · subst h; exact hyx
        · exact hy z h

theorem mem_foldl_insertSorted (a : String) :
    ∀ (l acc : List String), a ∈ l.foldl (fun acc x => insertSorted x acc) acc
      ↔ a ∈ acc ∨ a ∈ l
  | [], acc => by simp
  | x :: l, acc => by
    show a ∈ l.foldl (fun acc x => insertSorted x acc) (insertSorted x acc) ↔ _
    rw [mem_foldl_insertSorted a l (insertSorted x acc), mem_insertSorted x a acc]
    simp only [List.mem_cons]
    tauto

theorem pairwise_foldl_insertSorted :
    ∀ (l acc : List String), acc.Pairwise (fun a b => strLt a b = true)
      → (l.foldl (fun acc x => insertSorted x acc) acc).Pairwise
          (fun a b => strLt a b = true)
  | [], _, h => h
  | x :: l, acc, h =>
    pairwise_foldl_insertSorted l (insertSorted x acc) (pairwise_insertSorted x acc h)

theorem mem_sortDedup (a : String) (l : List String) : a ∈ sortDedup l ↔ a ∈ l := by
  rw [sortDedup, mem_foldl_insertSorted a l []]
  simp

theorem pairwise_sortDedup (l : List String) :
    (sortDedup l).Pairwise (fun a b => strLt a b = true) :=
  pairwise_foldl_insertSorted l [] List.Pairwise.nil

/-! ## Claim C4 -/

/-- Claim C4: link discovery returns a strictly increasing (hence
duplicate-free, lexicographically sorted, run-to-run deterministic) list;
every returned URL starts with the exact date-scoped address; and the
returned URLs are exactly the resolved hrefs that pass the date filter. -/
theorem extract_links_sorted_dedup_scoped (resolve : String → String)
    (hrefs : List String) (y m d : Nat) :
    (extract_article_links resolve hrefs y m d).Pairwise (fun a b => strLt a b = true)
    ∧ (∀ u ∈ extract_article_links resolve hrefs y m d,
        startsWithB u (dateScope y m d) = true)
    ∧ (∀ u, u ∈ extract_article_links resolve hrefs y m d
        ↔ u ∈ (hrefs.map fun h => resolve (stripStr h))
          ∧ startsWithB u (dateScope y m d) = true) := by
  refine ⟨pairwise_sortDedup _, ?_, ?_⟩
  · intro u hu
    have := (mem_sortDedup u _).mp hu
    exact (List.mem_filter.mp this).2
  · intro u
    unfold extract_article_links
    rw [mem_sortDedup, List.mem_filter]

set_option maxRecDepth 8000 in
/-- Witness for C4 at a concrete input (identity resolution, one in-scope and
one out-of-scope link). -/
theorem extract_links_sorted_dedup_scoped_witness :
    startsWithB "https://english.newsfirst.lk/2026/01/13/story-a" (dateScope 2026 1 13)
      = true :=
  (extract_links_sorted_dedup_scoped (fun u => u)
      [" https://english.newsfirst.lk/2026/01/13/story-a ", "https://other.site/x"]
      2026 1 13).2.1
    "https://english.newsfirst.lk/2026/01/13/story-a"
    (((extract_links_sorted_dedup_scoped (fun u => u)
      [" https://english.newsfirst.lk/2026/01/13/story-a ", "https://other.site/x"]
      2026 1 13).2.2 "https://english.newsfirst.lk/2026/01/13/story-a").mpr
      ⟨by decide, by decide⟩)

/-! ## Claim C9 -/

theorem normTail_all_fail (raw : String) (h1 : tryFormats raw = none)
    (h2 : parseIsoCore (rstripZ raw) = none) : normTail raw = some raw := by
  unfold normTail
  rw [h1]
  show (match parseIsoCore (rstripZ raw) with
    | some t => some (fmtDisplay t)
    | none => some raw) = some raw
  rw [h2]

/-- Claim C9, amended: when the optional general-purpose parser is absent or
fails, every explicit format pattern fails, and strict ISO parsing (with
trailing `Z` stripped) fails, `normalize_published_time` returns the
whitespace-STRIPPED raw string (the function strips its input once before all
attempts, so leading/trailing whitespace is not preserved verbatim); and when
extraction produced nothing at all, the literal `"Unknown"` is used
downstream. -/
theorem normalize_last_resort (du : Option (String → Option (DateTime × Bool)))
    (raw0 : String) :
    (raw0 ≠ "" →
      (∀ f, du = some f → f (stripStr raw0) = none) →
      tryFormats (stripStr raw0) = none →
      parseIsoCore (rstripZ (stripStr raw0)) = none →
      normalize_published_time du (some raw0) = some (stripStr raw0))
    ∧ publishedOf du none = "Unknown" := by
  refine ⟨?_, rfl⟩
  intro h0 hdu hfmt hiso
  have htail := normTail_all_fail (stripStr raw0) hfmt hiso
  rcases du with _ | f
  · show (if raw0 = "" then none else normTail (stripStr raw0)) = some (stripStr raw0)
    rw [if_neg h0]
    exact htail
  · show (if raw0 = "" then none
      else match f (stripStr raw0) with
        | some (t, aware) => some (fmtDisplay t ++ (if aware then " UTC" else ""))
        | none => normTail (stripStr raw0)) = some (stripStr raw0)
    rw [if_neg h0]
    show (match f (stripStr raw0) with
      | some (t, aware) => some (fmtDisplay t ++ (if aware then " UTC" else ""))
      | none => normTail (stripStr raw0)) = some (stripStr raw0)
    rw [hdu f rfl]
    exact htail

/-- Witness for C9 (amended) at a concrete input on which every attempt
fails. -/
theorem normalize_last_resort_witness :
    normalize_published_time none (some "date unknown!") = some (stripStr "date unknown!")
    ∧ publishedOf none none = "Unknown" :=
  ⟨(normalize_last_resort none "date unknown!").1 (by decide)
      (fun f hf => Option.noConfusion hf) (by decide) (by decide),
   (normalize_last_resort none "date unknown!").2⟩

/-- Counterexample to C9 as stated: on `" raw datum "` (every attempt fails)
the function returns the stripped string `"raw datum"`, not the raw string
verbatim. -/
theorem normalize_not_verbatim_cex :
    normalize_published_time none (some " raw datum ") = some "raw datum"
    ∧ " raw datum " ≠ "raw datum" := by
  constructor
  · decide
  · decide

/-! ## Claim C10 -/

theorem hexDigit_lower (n : Nat) : isLowerHex (hexDigit n) = true := by
  unfold hexDigit
  generalize hm : n % 16 = m
  have h : m < 16 := hm ▸ Nat.mod_lt n (by decide)
  interval_cases m <;> decide

theorem wordHex_all_lower (w : Nat) : ∀ c ∈ wordHex w, isLowerHex c = true := by
  intro c hc
  simp only [wordHex, List.mem_cons, List.not_mem_nil, or_false] at hc
  rcases hc with h | h | h | h | h | h | h | h <;> (subst h; exact hexDigit_lower _)

theorem digestHex_length (d : Digest) : (digestHex d).length = 64 := rfl

theorem digestHex_all_lower (d : Digest) :
    ∀ c ∈ (digestHex d).data, isLowerHex c = true := by
  intro c hc
  have hc' : c ∈ wordHex d.h0 ++ wordHex d.h1 ++ wordHex d.h2 ++ wordHex d.h3
    ++ wordHex d.h4 ++ wordHex d.h5 ++ wordHex d.h6 ++ wordHex d.h7 := hc
  simp only [List.mem_append, or_assoc] at hc'
  rcases hc' with h | h | h | h | h | h | h | h <;> exact wordHex_all_lower _ c h

/-- Claim C10: `generate_content_hash` always returns the full 64-character
lowercase-hex SHA-256 digest (never a truncated prefix), and it is
deterministic over the trim-and-concatenate normalization: inputs equal after
stripping produce equal fingerprints. -/
theorem generate_hash_full_hex (t1 b1 t2 b2 : String) :
    (generate_content_hash t1 b1).length = 64
    ∧ (∀ c ∈ (generate_content_hash t1 b1).data, isLowerHex c = true)
    ∧ (stripStr t1 = stripStr t2 → stripStr b1 = stripStr b2 →
        generate_content_hash t1 b1 = generate_content_hash t2 b2) := by
  refine ⟨digestHex_length _, digestHex_all_lower _, ?_⟩
  intro ht hb
  simp only [generate_content_hash, ht, hb]

/-- Witness for C10 at concrete inputs whose strips agree. -/
theorem generate_hash_full_hex_witness :
    stripStr " A" = stripStr "A " ∧ stripStr "b " = stripStr " b"
    ∧ generate_content_hash " A" "b " = generate_content_hash "A " " b" :=
  ⟨by decide, by decide,
   (generate_hash_full_hex " A" "b " "A " " b").2.2 (by decide) (by decide)⟩

/-! ## Claim C1 -/

/-- Claim C1 names a property the code violates.  When the transport returns
a non-2xx response, `send_telegram_message` swallows the `HTTPError` after
logging it, so `main` proceeds to `save_sent_article` and persists the
record: the article IS marked as sent despite the failed dispatch.  This
theorem evaluates the embedded loop body at the failing input — empty store,
candidate URL `"u"`, non-2xx dispatch: the outcome is `sent` and a record for
the URL is appended.  Only a network error (transport exception) leaves the
store unchanged with an `errored` outcome. -/
theorem dispatch_httpError_still_marks_sent :
    (processCandidate [] "u" "T" "B" "2026-01-13T10:00:00Z" .httpErr).2
      = StepOutcome.sentOut
    ∧ ((processCandidate [] "u" "T" "B" "2026-01-13T10:00:00Z" .httpErr).1.any
        fun r => r.url == some "u") = true
    ∧ processCandidate [] "u" "T" "B" "2026-01-13T10:00:00Z" .netErr
        = ([], StepOutcome.erroredOut) := by
  refine ⟨rfl, by decide, rfl⟩

end NewsScraper
